import Mathlib

/-!
Verification of the room-state machine of `card_picker` (`src/app.py`).

The Python module keeps one mutable `GameState` dataclass per room, with two
per-player main decks drawn from one shuffled base ordering plus a shared
"twist" pool.  We embed the dataclass as a Lean structure and each mutating
method as a state-passing function.  Card images (PNG byte strings in the
source) are opaque values; we model them as natural numbers, since the core
logic only ever uses their count and list positions.  Python's global
`random` module is an external collaborator: we model it as an explicit
`Rng` value threaded through `initialize_from_dirs`, with a deterministic
seeding function and a shuffle that is a deterministic function of the rng
state and always produces a permutation, which is all the source relies on.
The `threading.Lock` field and the `with self.locked:` blocks serialize the
method bodies; the sequential embedding corresponds to that serialized
execution, so the lock itself is not modelled.
-/

namespace CardPicker

/-- Model of the stdlib pseudo-random source: a single integer state. -/
structure Rng where
  state : Nat
deriving Repr, DecidableEq

/-- Model of one step of the pseudo-random source (a small LCG). -/
def lcg (n : Nat) : Nat := (75 * n + 74) % 65537

/-- Model of drawing a random index below `n` (as `random.shuffle` does
internally); for `n > 0` the result is `< n`. -/
def randBelow (r : Rng) (n : Nat) : Nat × Rng :=
  (lcg r.state % n, ⟨lcg r.state⟩)

/-- Model of `random.seed(str)`: a deterministic function of the seed
string. -/
def strSeed (t : String) : Nat :=
  t.data.foldl (fun a c => (a * 131 + c.toNat) % 65537) 7

/-- Model of `random.shuffle`: repeatedly pick a random position of the
remaining list and emit that element.  Driven purely by the rng state, hence
deterministic, and the output is a permutation of the input (proved below).
The `fuel` argument is the list length, making the recursion structural. -/
def shuffleAux : Nat → List Nat → Rng → List Nat × Rng
  | 0, l, r => (l, r)
  | fuel + 1, l, r =>
    match l with
    | [] => ([], r)
    | _ :: _ =>
      let jr := randBelow r l.length
      let rest := shuffleAux fuel (l.eraseIdx jr.1) jr.2
      (l.getD jr.1 0 :: rest.1, rest.2)

/-- Model of `random.shuffle` on a whole list. -/
def shuffle (l : List Nat) (r : Rng) : List Nat × Rng :=
  shuffleAux l.length l r

/-- The `GameState` dataclass of `src/app.py` (field for field, minus the
`threading.Lock`, which has no game-visible content).  Card ids are indices
into `card_images` / `twist_images`; images are opaque (`Nat` here, bytes in
the source). -/
structure GameState where
  card_images : List Nat := []
  card_paths : List String := []
  twist_images : List Nat := []
  twist_paths : List String := []
  hand_size : Nat := 3
  seed : Option String := none
  cards_dir : String := "cards"
  twist_dir : String := "gyhran"
  deck_p1 : List Nat := []
  deck_p2 : List Nat := []
  discard_p1 : List Nat := []
  discard_p2 : List Nat := []
  hand_p1 : List Nat := []
  hand_p2 : List Nat := []
  twist_deck : List Nat := []
  twist_discard : List Nat := []
  twist_current : Option Nat := none
deriving Repr, DecidableEq

/-- A fresh, never-initialized room, as created by `get_game` on first
access (`GameState()` with all dataclass defaults). -/
def emptyGame : GameState := {}

/-- The two `raise RuntimeError` sites of `initialize_from_dirs` (both are
the spec's `EmptyAssetSet`); each carries the offending folder name as the
Python message does. -/
inductive InitError where
  | emptyCards (dir : String)
  | emptyTwist (dir : String)
deriving Repr, DecidableEq

/-- `GameState.reseed`: `if self.seed: random.seed(self.seed)`.  `None` and
the empty string are falsy in Python, so they leave the rng alone. -/
def reseed (s : GameState) (r : Rng) : Rng :=
  match s.seed with
  | none => r
  | some t => if t = "" then r else ⟨strSeed t⟩

/-- `GameState.initialize_from_dirs`.  The two directory loads are I/O, so
the loaded contents arrive as arguments (`imgs`/`paths` for the card folder,
`timgs`/`tpaths` for the twist folder).  The result is the state after the
call, the rng after the call, and the raised error if any; on the error
paths the Python method has not yet assigned any field, so the state comes
back unchanged. -/
def initialize_from_dirs (s : GameState) (imgs : List Nat) (paths : List String)
    (timgs : List Nat) (tpaths : List String) (r : Rng) :
    GameState × Rng × Option InitError :=
  let r1 := reseed s r
  if imgs = [] then (s, r1, some (.emptyCards s.cards_dir))
  else if timgs = [] then (s, r1, some (.emptyTwist s.twist_dir))
  else
    let b := shuffle (List.range imgs.length) r1
    let t := shuffle (List.range timgs.length) b.2
    ({ s with
        card_images := imgs, card_paths := paths,
        twist_images := timgs, twist_paths := tpaths,
        deck_p1 := b.1, deck_p2 := b.1,
        discard_p1 := [], discard_p2 := [],
        hand_p1 := [], hand_p2 := [],
        twist_deck := t.1, twist_discard := [],
        twist_current := none },
      t.2, none)

/-- The `while` loop of `draw_up_to_full`: while the hand is below `target`
and the deck is non-empty, pop the deck's tail and append it to the hand
unless already present.  `fuel` bounds the iteration count; every call site
passes the deck length, which the loop can never exceed. -/
def drawLoop (target : Nat) : Nat → List Nat → List Nat → List Nat × List Nat
  | 0, hand, deck => (hand, deck)
  | fuel + 1, hand, deck =>
    if hand.length < target then
      match deck.getLast? with
      | none => (hand, deck)
      | some nxt =>
        if nxt ∈ hand then drawLoop target fuel hand deck.dropLast
        else drawLoop target fuel (hand ++ [nxt]) deck.dropLast
    else (hand, deck)

/-- `GameState.draw_up_to_full(player)`: any player string other than
`"p1"` falls into the `else` branch and uses p2's hand and deck. -/
def draw_up_to_full (s : GameState) (player : String) : GameState :=
  if player = "p1" then
    let hd := drawLoop s.hand_size s.deck_p1.length s.hand_p1 s.deck_p1
    { s with hand_p1 := hd.1, deck_p1 := hd.2 }
  else
    let hd := drawLoop s.hand_size s.deck_p2.length s.hand_p2 s.deck_p2
    { s with hand_p2 := hd.1, deck_p2 := hd.2 }

/-- The `for idx in to_discard` loop of `discard_selected`: ids present in
the (current) hand are removed (`list.remove` drops the first occurrence,
i.e. `List.erase`) and appended to the discard pile; others are ignored. -/
def discardLoop : List Nat → List Nat → List Nat → List Nat × List Nat
  | [], hand, discard => (hand, discard)
  | idx :: rest, hand, discard =>
    if idx ∈ hand then discardLoop rest (hand.erase idx) (discard ++ [idx])
    else discardLoop rest hand discard

/-- `GameState.discard_selected(player, to_discard)`. -/
def discard_selected (s : GameState) (player : String) (to_discard : List Nat) :
    GameState :=
  if player = "p1" then
    let hd := discardLoop to_discard s.hand_p1 s.discard_p1
    { s with hand_p1 := hd.1, discard_p1 := hd.2 }
  else
    let hd := discardLoop to_discard s.hand_p2 s.discard_p2
    { s with hand_p2 := hd.1, discard_p2 := hd.2 }

/-- `GameState.ensure_twist_exists`: if there is no current twist and the
twist deck is non-empty, pop the deck's tail into `twist_current`. -/
def ensure_twist_exists (s : GameState) : GameState :=
  match s.twist_current, s.twist_deck.getLast? with
  | none, some x =>
    { s with twist_current := some x, twist_deck := s.twist_deck.dropLast }
  | _, _ => s

/-- `GameState.change_twist(requester)`: a no-op unless the requester is the
host `"p1"`; otherwise move the current twist (if any) to `twist_discard`,
then pop a new one from the twist deck (if any). -/
def change_twist (s : GameState) (requester : String) : GameState :=
  if requester = "p1" then
    let s1 :=
      match s.twist_current with
      | some c =>
        { s with twist_discard := s.twist_discard ++ [c], twist_current := none }
      | none => s
    match s1.twist_deck.getLast? with
    | some x =>
      { s1 with twist_current := some x, twist_deck := s1.twist_deck.dropLast }
    | none => s1
  else s

/-- One gameplay operation of the room state (the four mutating methods
callable after initialization). -/
inductive Op where
  | draw (player : String)
  | discardSel (player : String) (ids : List Nat)
  | ensureTwist
  | changeTw (requester : String)
deriving Repr, DecidableEq

/-- Apply one gameplay operation. -/
def applyOp (s : GameState) : Op → GameState
  | .draw p => draw_up_to_full s p
  | .discardSel p ids => discard_selected s p ids
  | .ensureTwist => ensure_twist_exists s
  | .changeTw req => change_twist s req

/-- Apply a sequence of gameplay operations, left to right. -/
def applyOps (s : GameState) : List Op → GameState
  | [] => s
  | op :: rest => applyOps (applyOp s op) rest

/-- The hand list the source selects for a player string. -/
def handOf (s : GameState) (player : String) : List Nat :=
  if player = "p1" then s.hand_p1 else s.hand_p2

/-- The deck list the source selects for a player string. -/
def deckOf (s : GameState) (player : String) : List Nat :=
  if player = "p1" then s.deck_p1 else s.deck_p2

/-- The discard list the source selects for a player string. -/
def discardOf (s : GameState) (player : String) : List Nat :=
  if player = "p1" then s.discard_p1 else s.discard_p2

/-- View an optional current card as a zero- or one-element list. -/
def optList : Option Nat → List Nat
  | none => []
  | some x => [x]

/-- All of p1's main-card collections, concatenated. -/
def mainAll1 (s : GameState) : List Nat := s.deck_p1 ++ s.hand_p1 ++ s.discard_p1

/-- All of p2's main-card collections, concatenated. -/
def mainAll2 (s : GameState) : List Nat := s.deck_p2 ++ s.hand_p2 ++ s.discard_p2

/-- All twist-card collections, concatenated. -/
def twistAll (s : GameState) : List Nat :=
  s.twist_deck ++ optList s.twist_current ++ s.twist_discard

/-- The data-model invariant: each role's main collections hold pairwise
distinct in-range ids, and likewise for the twist collections. -/
def Inv (s : GameState) : Prop :=
  (mainAll1 s).Nodup ∧ (∀ x ∈ mainAll1 s, x < s.card_images.length) ∧
  (mainAll2 s).Nodup ∧ (∀ x ∈ mainAll2 s, x < s.card_images.length) ∧
  (twistAll s).Nodup ∧ (∀ x ∈ twistAll s, x < s.twist_images.length)

/-- States reachable from a successful `initialize_from_dirs` by some
sequence of gameplay operations. -/
def Reachable (s : GameState) : Prop :=
  ∃ s0 imgs paths timgs tpaths r ops,
    (initialize_from_dirs s0 imgs paths timgs tpaths r).2.2 = none ∧
    s = applyOps (initialize_from_dirs s0 imgs paths timgs tpaths r).1 ops

/-- Id `x` is retired in p1's discard pile and absent from p1's live
collections (which the partition invariant guarantees whenever a card was
moved there by `discard_selected` from a reachable state). -/
abbrev DiscardedP1 (s : GameState) (x : Nat) : Prop :=
  x ∈ s.discard_p1 ∧ x ∉ s.deck_p1 ∧ x ∉ s.hand_p1

/-- Id `x` is retired in p2's discard pile and absent from p2's live
collections. -/
abbrev DiscardedP2 (s : GameState) (x : Nat) : Prop :=
  x ∈ s.discard_p2 ∧ x ∉ s.deck_p2 ∧ x ∉ s.hand_p2

/-- Id `x` is retired in the twist discard pile and absent from the live
twist collections. -/
abbrev DiscardedTwist (s : GameState) (x : Nat) : Prop :=
  x ∈ s.twist_discard ∧ x ∉ s.twist_deck ∧ s.twist_current ≠ some x

/-- One concrete successful initialization: one main card, one twist card. -/
def initPair : GameState × Rng × Option InitError :=
  initialize_from_dirs emptyGame [9] ["c"] [9] ["t"] ⟨0⟩

/-- The room right after that initialization: both decks are `[0]`. -/
def initGame : GameState := initPair.1

/-- The room after p1 drew its full hand (card 0) and then discarded card 0;
card 0 now sits in `discard_p1` while its copy is still in `deck_p2`. -/
def discardedGame : GameState :=
  applyOps initGame [.draw "p1", .discardSel "p1" [0]]

/-- A concrete successful initialization with two twist cards. -/
def twistPair : GameState × Rng × Option InitError :=
  initialize_from_dirs emptyGame [9] ["c"] [9, 9] ["t", "t"] ⟨0⟩

/-- The room right after that initialization: `twist_deck` holds `0` and
`1`, no current twist yet. -/
def twistGame : GameState := twistPair.1

/-- A room state whose p1 hand holds more cards than `hand_size` (the
dataclass fields are publicly assignable in Python, so this object is
constructible). -/
def overfullGame : GameState := { hand_p1 := [0, 1, 2, 3], deck_p1 := [4] }

/-- A room state whose p1 hand holds the same id twice. -/
def dupHandGame : GameState := { hand_p1 := [5, 5] }

/-- A room state matching the spec's Scenario B: p1 hand `{7, 2, 9}`. -/
def handGame : GameState := { hand_p1 := [7, 2, 9] }

/-- A fresh room configured with the non-empty seed `"x"`. -/
def seededGameA : GameState := { seed := some "x" }

/-- A differently pre-populated room configured with the same seed `"x"`. -/
def seededGameB : GameState := { seed := some "x", deck_p1 := [7], hand_p2 := [3] }

/-! ### Basic list lemmas -/

theorem getLast?_some_decomp {l : List Nat} {x : Nat} (h : l.getLast? = some x) :
    l = l.dropLast ++ [x] := by
  have hne : l ≠ [] := by intro he; subst he; simp at h
  have hg := List.getLast?_eq_getLast l hne
  rw [hg] at h
  have hx : l.getLast hne = x := by injection h
  rw [← hx]
  exact (List.dropLast_append_getLast hne).symm

theorem getLast?_some_mem {l : List Nat} {x : Nat} (h : l.getLast? = some x) :
    x ∈ l := by
  rw [getLast?_some_decomp h]; simp

theorem subperm_nodup {l₁ l₂ : List Nat} (h : l₁.Subperm l₂) (h₂ : l₂.Nodup) :
    l₁.Nodup := by
  obtain ⟨l, hp, hs⟩ := h
  exact hp.nodup_iff.mp (h₂.sublist hs)

theorem getD_cons_eraseIdx_perm :
    ∀ (l : List Nat) (j : Nat), j < l.length → (l.getD j 0 :: l.eraseIdx j).Perm l
  | [], j, h => by simp at h
  | a :: t, 0, _ => by simp [List.eraseIdx]
  | a :: t, j + 1, h => by
    have ih := getD_cons_eraseIdx_perm t j (by simpa using h)
    have h1 : (a :: t).getD (j + 1) 0 :: (a :: t).eraseIdx (j + 1)
        = t.getD j 0 :: a :: t.eraseIdx j := by
      simp [List.eraseIdx]
    rw [h1]
    exact (List.Perm.swap a (t.getD j 0) (t.eraseIdx j)).trans (ih.cons a)

/-! ### Shuffle produces a permutation -/

theorem shuffleAux_perm : ∀ (fuel : Nat) (l : List Nat) (r : Rng),
    ((shuffleAux fuel l r).1).Perm l
  | 0, l, _ => List.Perm.refl l
  | fuel + 1, [], r => by simp [shuffleAux]
  | fuel + 1, a :: t, r => by
    have hj : (randBelow r (a :: t).length).1 < (a :: t).length :=
      Nat.mod_lt _ (by simp)
    have ih := shuffleAux_perm fuel
      ((a :: t).eraseIdx (randBelow r (a :: t).length).1)
      (randBelow r (a :: t).length).2
    simpa [shuffleAux] using (ih.cons _).trans (getD_cons_eraseIdx_perm _ _ hj)

theorem shuffle_perm (l : List Nat) (r : Rng) : ((shuffle l r).1).Perm l :=
  shuffleAux_perm l.length l r

/-! ### The draw loop -/

theorem drawLoop_subperm (target : Nat) :
    ∀ (fuel : Nat) (hand deck : List Nat),
      ((drawLoop target fuel hand deck).1 ++ (drawLoop target fuel hand deck).2).Subperm
        (hand ++ deck) := by
  intro fuel
  induction fuel with
  | zero => intro hand deck; exact List.Subperm.refl _
  | succ fuel ih =>
    intro hand deck
    by_cases hlt : hand.length < target
    · cases hg : deck.getLast? with
      | none =>
        simp only [drawLoop, if_pos hlt, hg]
        exact List.Subperm.refl _
      | some nxt =>
        by_cases hmem : nxt ∈ hand
        · have heq : drawLoop target (fuel + 1) hand deck
              = drawLoop target fuel hand deck.dropLast := by
            simp [drawLoop, hlt, hg, hmem]
          rw [heq]
          exact (ih hand deck.dropLast).trans
            ((List.dropLast_sublist deck).append_left hand).subperm
        · have heq : drawLoop target (fuel + 1) hand deck
              = drawLoop target fuel (hand ++ [nxt]) deck.dropLast := by
            simp [drawLoop, hlt, hg, hmem]
          rw [heq]
          have hperm : ((hand ++ [nxt]) ++ deck.dropLast).Perm
              (hand ++ (deck.dropLast ++ [nxt])) := by
            rw [← Multiset.coe_eq_coe]
            simp only [← Multiset.coe_add]
            abel
          rw [← getLast?_some_decomp hg] at hperm
          exact (ih (hand ++ [nxt]) deck.dropLast).trans hperm.subperm
    · simp only [drawLoop, if_neg hlt]
      exact List.Subperm.refl _

theorem drawLoop_take (target : Nat) :
    ∀ (fuel : Nat) (hand deck : List Nat),
      ∃ k, (drawLoop target fuel hand deck).2 = deck.take k := by
  intro fuel
  induction fuel with
  | zero => intro hand deck; exact ⟨deck.length, (deck.take_length).symm⟩
  | succ fuel ih =>
    intro hand deck
    by_cases hlt : hand.length < target
    · cases hg : deck.getLast? with
      | none =>
        exact ⟨deck.length, by simp [drawLoop, hlt, hg, deck.take_length]⟩
      | some nxt =>
        have hdl : deck.dropLast = deck.take (deck.length - 1) :=
          List.dropLast_eq_take deck
        by_cases hmem : nxt ∈ hand
        · obtain ⟨k, hk⟩ := ih hand deck.dropLast
          have heq : drawLoop target (fuel + 1) hand deck
              = drawLoop target fuel hand deck.dropLast := by
            simp [drawLoop, hlt, hg, hmem]
          exact ⟨k ⊓ (deck.length - 1), by rw [heq, hk, hdl, List.take_take]⟩
        · obtain ⟨k, hk⟩ := ih (hand ++ [nxt]) deck.dropLast
          have heq : drawLoop target (fuel + 1) hand deck
              = drawLoop target fuel (hand ++ [nxt]) deck.dropLast := by
            simp [drawLoop, hlt, hg, hmem]
          exact ⟨k ⊓ (deck.length - 1), by rw [heq, hk, hdl, List.take_take]⟩
    · exact ⟨deck.length, by simp [drawLoop, hlt, deck.take_length]⟩

theorem drawLoop_newhand (target : Nat) :
    ∀ (fuel : Nat) (hand deck : List Nat),
      ∃ dr, (drawLoop target fuel hand deck).1 = hand ++ dr ∧
        ∀ x ∈ dr, x ∈ deck ∧ x ∉ hand := by
  intro fuel
  induction fuel with
  | zero => intro hand deck; exact ⟨[], by simp [drawLoop]⟩
  | succ fuel ih =>
    intro hand deck
    by_cases hlt : hand.length < target
    · cases hg : deck.getLast? with
      | none => exact ⟨[], by simp [drawLoop, hlt, hg]⟩
      | some nxt =>
        by_cases hmem : nxt ∈ hand
        · obtain ⟨dr, hdr, hel⟩ := ih hand deck.dropLast
          refine ⟨dr, by simp [drawLoop, hlt, hg, hmem, hdr], ?_⟩
          intro x hx
          exact ⟨(List.dropLast_sublist deck).subset (hel x hx).1, (hel x hx).2⟩
        · obtain ⟨dr, hdr, hel⟩ := ih (hand ++ [nxt]) deck.dropLast
          refine ⟨nxt :: dr, ?_, ?_⟩
          · have : drawLoop target (fuel + 1) hand deck
                = drawLoop target fuel (hand ++ [nxt]) deck.dropLast := by
              simp [drawLoop, hlt, hg, hmem]
            rw [this, hdr, List.append_assoc]
            rfl
          · intro x hx
            rcases List.mem_cons.mp hx with hx | hx
            · subst hx; exact ⟨getLast?_some_mem hg, hmem⟩
            · refine ⟨(List.dropLast_sublist deck).subset (hel x hx).1, ?_⟩
              intro hxh
              exact (hel x hx).2 (List.mem_append_left [nxt] hxh)
    · exact ⟨[], by simp [drawLoop, hlt]⟩

theorem drawLoop_fill (target : Nat) :
    ∀ (fuel : Nat) (hand deck : List Nat), deck.length ≤ fuel →
      hand.length ≤ target →
      (drawLoop target fuel hand deck).1.length = target ∨
        (drawLoop target fuel hand deck).2 = [] := by
  intro fuel
  induction fuel with
  | zero =>
    intro hand deck hf _
    have : deck = [] := List.eq_nil_of_length_eq_zero (Nat.le_zero.mp hf)
    subst this
    exact Or.inr rfl
  | succ fuel ih =>
    intro hand deck hf hle
    by_cases hlt : hand.length < target
    · cases hg : deck.getLast? with
      | none =>
        have : deck = [] := List.getLast?_eq_none_iff.mp hg
        subst this
        simp [drawLoop, hlt]
      | some nxt =>
        have hne : deck ≠ [] := by
          intro he; subst he; simp at hg
        have hlen : deck.dropLast.length ≤ fuel := by
          rw [List.length_dropLast]
          omega
        by_cases hmem : nxt ∈ hand
        · have heq : drawLoop target (fuel + 1) hand deck
              = drawLoop target fuel hand deck.dropLast := by
            simp [drawLoop, hlt, hg, hmem]
          rw [heq]
          exact ih hand deck.dropLast hlen hle
        · have heq : drawLoop target (fuel + 1) hand deck
              = drawLoop target fuel (hand ++ [nxt]) deck.dropLast := by
            simp [drawLoop, hlt, hg, hmem]
          rw [heq]
          exact ih (hand ++ [nxt]) deck.dropLast hlen (by simp; omega)
    · have : hand.length = target := Nat.le_antisymm hle (Nat.not_lt.mp hlt)
      simp [drawLoop, hlt, this]

/-! ### The discard loop -/

theorem discardLoop_perm : ∀ (ids hand discard : List Nat),
    ((discardLoop ids hand discard).1 ++ (discardLoop ids hand discard).2).Perm
      (hand ++ discard)
  | [], hand, discard => List.Perm.refl _
  | idx :: rest, hand, discard => by
    by_cases hmem : idx ∈ hand
    · have ih := discardLoop_perm rest (hand.erase idx) (discard ++ [idx])
      have heq : discardLoop (idx :: rest) hand discard
          = discardLoop rest (hand.erase idx) (discard ++ [idx]) := by
        simp [discardLoop, hmem]
      rw [heq]
      refine ih.trans ?_
      have h1 : hand.Perm (idx :: hand.erase idx) := List.perm_cons_erase hmem
      rw [← Multiset.coe_eq_coe]
      simp only [← Multiset.coe_add]
      rw [← Multiset.coe_eq_coe] at h1
      rw [h1]
      have h2 : (↑(idx :: hand.erase idx) : Multiset Nat) = ↑[idx] + ↑(hand.erase idx) := by
        simp
      rw [h2]
      abel
    · have ih := discardLoop_perm rest hand discard
      have heq : discardLoop (idx :: rest) hand discard
          = discardLoop rest hand discard := by
        simp [discardLoop, hmem]
      rw [heq]
      exact ih

theorem discardLoop_hand_sublist : ∀ (ids hand discard : List Nat),
    ((discardLoop ids hand discard).1).Sublist hand
  | [], hand, discard => List.Sublist.refl _
  | idx :: rest, hand, discard => by
    by_cases hmem : idx ∈ hand
    · have ih := discardLoop_hand_sublist rest (hand.erase idx) (discard ++ [idx])
      have heq : discardLoop (idx :: rest) hand discard
          = discardLoop rest (hand.erase idx) (discard ++ [idx]) := by
        simp [discardLoop, hmem]
      rw [heq]
      exact ih.trans (List.erase_sublist idx hand)
    · have ih := discardLoop_hand_sublist rest hand discard
      have heq : discardLoop (idx :: rest) hand discard
          = discardLoop rest hand discard := by
        simp [discardLoop, hmem]
      rw [heq]
      exact ih

theorem discardLoop_discard_decomp : ∀ (ids hand discard : List Nat),
    ∃ ap, (discardLoop ids hand discard).2 = discard ++ ap ∧
      ∀ y ∈ ap, y ∈ hand ∧ y ∈ ids
  | [], hand, discard => ⟨[], by simp [discardLoop]⟩
  | idx :: rest, hand, discard => by
    by_cases hmem : idx ∈ hand
    · obtain ⟨ap, hap, hel⟩ :=
        discardLoop_discard_decomp rest (hand.erase idx) (discard ++ [idx])
      have heq : discardLoop (idx :: rest) hand discard
          = discardLoop rest (hand.erase idx) (discard ++ [idx]) := by
        simp [discardLoop, hmem]
      refine ⟨idx :: ap, ?_, ?_⟩
      · rw [heq, hap, List.append_assoc]
        rfl
      · intro y hy
        rcases List.mem_cons.mp hy with hy | hy
        · subst hy; exact ⟨hmem, List.mem_cons_self _ _⟩
        · exact ⟨(List.erase_sublist idx hand).subset (hel y hy).1,
            List.mem_cons_of_mem idx (hel y hy).2⟩
    · obtain ⟨ap, hap, hel⟩ := discardLoop_discard_decomp rest hand discard
      have heq : discardLoop (idx :: rest) hand discard
          = discardLoop rest hand discard := by
        simp [discardLoop, hmem]
      exact ⟨ap, by rw [heq, hap], fun y hy =>
        ⟨(hel y hy).1, List.mem_cons_of_mem idx (hel y hy).2⟩⟩

theorem discardLoop_hand_eq : ∀ (ids hand discard : List Nat), hand.Nodup →
    (discardLoop ids hand discard).1 = hand.filter (fun x => decide (x ∉ ids))
  | [], hand, discard, _ => by simp [discardLoop]
  | idx :: rest, hand, discard, hnd => by
    by_cases hmem : idx ∈ hand
    · have heq : discardLoop (idx :: rest) hand discard
          = discardLoop rest (hand.erase idx) (discard ++ [idx]) := by
        simp [discardLoop, hmem]
      rw [heq, discardLoop_hand_eq rest (hand.erase idx) (discard ++ [idx])
        (hnd.erase idx)]
      rw [List.Nodup.erase_eq_filter hnd idx, List.filter_filter]
      refine List.filter_congr ?_
      intro x _
      by_cases h1 : x = idx <;> by_cases h2 : x ∈ rest <;> simp [h1, h2]
    · have heq : discardLoop (idx :: rest) hand discard
          = discardLoop rest hand discard := by
        simp [discardLoop, hmem]
      rw [heq, discardLoop_hand_eq rest hand discard hnd]
      refine List.filter_congr ?_
      intro x hx
      have hxi : x ≠ idx := fun he => hmem (he ▸ hx)
      by_cases h2 : x ∈ rest <;> simp [h2, hxi]

theorem discardLoop_discard_mem : ∀ (ids hand discard : List Nat), hand.Nodup →
    ∀ x, x ∈ (discardLoop ids hand discard).2 ↔
      x ∈ discard ∨ (x ∈ ids ∧ x ∈ hand)
  | [], hand, discard, _, x => by simp [discardLoop]
  | idx :: rest, hand, discard, hnd, x => by
    by_cases hmem : idx ∈ hand
    · have heq : discardLoop (idx :: rest) hand discard
          = discardLoop rest (hand.erase idx) (discard ++ [idx]) := by
        simp [discardLoop, hmem]
      rw [heq, discardLoop_discard_mem rest (hand.erase idx) (discard ++ [idx])
        (hnd.erase idx) x]
      rw [List.mem_append, List.mem_singleton, hnd.mem_erase_iff]
      by_cases hxi : x = idx
      · subst hxi; simp [hmem]
      · simp [hxi]
    · have heq : discardLoop (idx :: rest) hand discard
          = discardLoop rest hand discard := by
        simp [discardLoop, hmem]
      rw [heq, discardLoop_discard_mem rest hand discard hnd x]
      have hxi : x ∈ idx :: rest ↔ x = idx ∨ x ∈ rest := List.mem_cons
      rw [hxi]
      constructor
      · rintro (h | ⟨h1, h2⟩)
        · exact Or.inl h
        · exact Or.inr ⟨Or.inr h1, h2⟩
      · rintro (h | ⟨h1 | h1, h2⟩)
        · exact Or.inl h
        · exact absurd (h1 ▸ h2) hmem
        · exact Or.inr ⟨h1, h2⟩

/-! ### Twist lifecycle rearrangement lemmas -/

theorem subperm_append_right {l₁ l₂ : List Nat} (t : List Nat)
    (h : l₁.Subperm l₂) : (l₁ ++ t).Subperm (l₂ ++ t) := by
  obtain ⟨l, hp, hs⟩ := h
  exact ⟨l ++ t, hp.append_right t, hs.append_right t⟩

theorem dropLast_cons_perm (d t : List Nat) (x : Nat) (hd : d.getLast? = some x) :
    (d.dropLast ++ [x] ++ t).Perm (d ++ t) := by
  conv_rhs => rw [getLast?_some_decomp hd]

theorem twistAll_ensure_perm (s : GameState) :
    (twistAll (ensure_twist_exists s)).Perm (twistAll s) := by
  cases hc : s.twist_current with
  | some c => simp [ensure_twist_exists, hc]
  | none =>
    cases hg : s.twist_deck.getLast? with
    | none => simp [ensure_twist_exists, hc, hg]
    | some x =>
      have heq : ensure_twist_exists s
          = { s with
              twist_current := some x
              twist_deck := s.twist_deck.dropLast } := by
        simp [ensure_twist_exists, hc, hg]
      rw [heq]
      simp only [twistAll, optList, hc, List.append_nil]
      exact dropLast_cons_perm s.twist_deck s.twist_discard x hg

theorem twistAll_change_perm (s : GameState) (req : String) :
    (twistAll (change_twist s req)).Perm (twistAll s) := by
  by_cases hreq : req = "p1"
  · cases hc : s.twist_current with
    | none =>
      cases hg : s.twist_deck.getLast? with
      | none => simp [change_twist, hreq, hc, hg]
      | some x =>
        have heq : change_twist s req
            = { s with
                twist_current := some x
                twist_deck := s.twist_deck.dropLast } := by
          simp [change_twist, hreq, hc, hg]
        rw [heq]
        simp only [twistAll, optList, hc, List.append_nil]
        exact dropLast_cons_perm s.twist_deck s.twist_discard x hg
    | some c =>
      cases hg : s.twist_deck.getLast? with
      | none =>
        have hnil : s.twist_deck = [] := List.getLast?_eq_none_iff.mp hg
        have heq : change_twist s req
            = { s with
                twist_discard := s.twist_discard ++ [c]
                twist_current := none } := by
          simp [change_twist, hreq, hc, hnil]
        rw [heq]
        simp only [twistAll, optList, hc, hnil, List.nil_append]
        rw [← Multiset.coe_eq_coe]
        simp only [← Multiset.coe_add]
        abel
      | some x =>
        have heq : change_twist s req
            = { s with
                twist_deck := s.twist_deck.dropLast
                twist_current := some x
                twist_discard := s.twist_discard ++ [c] } := by
          simp [change_twist, hreq, hc, hg]
        rw [heq]
        simp only [twistAll, optList, hc]
        refine (dropLast_cons_perm s.twist_deck (s.twist_discard ++ [c]) x hg).trans ?_
        rw [← Multiset.coe_eq_coe]
        simp only [← Multiset.coe_add]
        abel
  · simp [change_twist, hreq]

/-! ### Preservation of the data-model invariant -/

theorem drawMain_subperm (target fuel : Nat) (hand deck discard : List Nat) :
    ((drawLoop target fuel hand deck).2 ++ (drawLoop target fuel hand deck).1
      ++ discard).Subperm (deck ++ hand ++ discard) := by
  have hs := drawLoop_subperm target fuel hand deck
  have h1 : ((drawLoop target fuel hand deck).2 ++ (drawLoop target fuel hand deck).1
      ++ discard).Perm
      (((drawLoop target fuel hand deck).1 ++ (drawLoop target fuel hand deck).2)
        ++ discard) := by
    rw [← Multiset.coe_eq_coe]
    simp only [← Multiset.coe_add]
    abel
  have h2 : ((hand ++ deck) ++ discard).Perm (deck ++ hand ++ discard) := by
    rw [← Multiset.coe_eq_coe]
    simp only [← Multiset.coe_add]
    abel
  exact h1.subperm.trans ((subperm_append_right discard hs).trans h2.subperm)

theorem discardMain_perm (ids hand discard deck : List Nat) :
    (deck ++ (discardLoop ids hand discard).1 ++ (discardLoop ids hand discard).2).Perm
      (deck ++ hand ++ discard) := by
  have h := discardLoop_perm ids hand discard
  rw [← Multiset.coe_eq_coe] at h ⊢
  simp only [← Multiset.coe_add] at h ⊢
  rw [add_assoc, h, ← add_assoc]

theorem draw_preserves_Inv (s : GameState) (p : String) (h : Inv s) :
    Inv (draw_up_to_full s p) := by
  obtain ⟨hn1, hb1, hn2, hb2, hnt, hbt⟩ := h
  by_cases hp : p = "p1"
  · have hsp : (mainAll1 (draw_up_to_full s p)).Subperm (mainAll1 s) := by
      simp only [mainAll1, draw_up_to_full, hp, if_true, reduceIte]
      exact drawMain_subperm s.hand_size s.deck_p1.length s.hand_p1 s.deck_p1
        s.discard_p1
    have hci : (draw_up_to_full s p).card_images = s.card_images := by
      simp [draw_up_to_full, hp]
    have hti : (draw_up_to_full s p).twist_images = s.twist_images := by
      simp [draw_up_to_full, hp]
    have hm2 : mainAll2 (draw_up_to_full s p) = mainAll2 s := by
      simp [mainAll2, draw_up_to_full, hp]
    have htw : twistAll (draw_up_to_full s p) = twistAll s := by
      simp [twistAll, draw_up_to_full, hp]
    refine ⟨subperm_nodup hsp hn1, ?_, ?_, ?_, ?_, ?_⟩
    · intro x hx
      rw [hci]
      exact hb1 x (hsp.subset hx)
    · rw [hm2]; exact hn2
    · intro x hx
      rw [hci]
      exact hb2 x (hm2 ▸ hx)
    · rw [htw]; exact hnt
    · intro x hx
      rw [hti]
      exact hbt x (htw ▸ hx)
  · have hsp : (mainAll2 (draw_up_to_full s p)).Subperm (mainAll2 s) := by
      simp only [mainAll2, draw_up_to_full, hp, if_false, reduceIte]
      exact drawMain_subperm s.hand_size s.deck_p2.length s.hand_p2 s.deck_p2
        s.discard_p2
    have hci : (draw_up_to_full s p).card_images = s.card_images := by
      simp [draw_up_to_full, hp]
    have hti : (draw_up_to_full s p).twist_images = s.twist_images := by
      simp [draw_up_to_full, hp]
    have hm1 : mainAll1 (draw_up_to_full s p) = mainAll1 s := by
      simp [mainAll1, draw_up_to_full, hp]
    have htw : twistAll (draw_up_to_full s p) = twistAll s := by
      simp [twistAll, draw_up_to_full, hp]
    refine ⟨?_, ?_, subperm_nodup hsp hn2, ?_, ?_, ?_⟩
    · rw [hm1]; exact hn1
    · intro x hx
      rw [hci]
      exact hb1 x (hm1 ▸ hx)
    · intro x hx
      rw [hci]
      exact hb2 x (hsp.subset hx)
    · rw [htw]; exact hnt
    · intro x hx
      rw [hti]
      exact hbt x (htw ▸ hx)

theorem discard_preserves_Inv (s : GameState) (p : String) (ids : List Nat)
    (h : Inv s) : Inv (discard_selected s p ids) := by
  obtain ⟨hn1, hb1, hn2, hb2, hnt, hbt⟩ := h
  by_cases hp : p = "p1"
  · have hsp : (mainAll1 (discard_selected s p ids)).Perm (mainAll1 s) := by
      simp only [mainAll1, discard_selected, hp, if_true, reduceIte]
      exact discardMain_perm ids s.hand_p1 s.discard_p1 s.deck_p1
    have hci : (discard_selected s p ids).card_images = s.card_images := by
      simp [discard_selected, hp]
    have hti : (discard_selected s p ids).twist_images = s.twist_images := by
      simp [discard_selected, hp]
    have hm2 : mainAll2 (discard_selected s p ids) = mainAll2 s := by
      simp [mainAll2, discard_selected, hp]
    have htw : twistAll (discard_selected s p ids) = twistAll s := by
      simp [twistAll, discard_selected, hp]
    refine ⟨hsp.nodup_iff.mpr hn1, ?_, ?_, ?_, ?_, ?_⟩
    · intro x hx
      rw [hci]
      exact hb1 x (hsp.subset hx)
    · rw [hm2]; exact hn2
    · intro x hx
      rw [hci]
      exact hb2 x (hm2 ▸ hx)
    · rw [htw]; exact hnt
    · intro x hx
      rw [hti]
      exact hbt x (htw ▸ hx)
  · have hsp : (mainAll2 (discard_selected s p ids)).Perm (mainAll2 s) := by
      simp only [mainAll2, discard_selected, hp, if_false, reduceIte]
      exact discardMain_perm ids s.hand_p2 s.discard_p2 s.deck_p2
    have hci : (discard_selected s p ids).card_images = s.card_images := by
      simp [discard_selected, hp]
    have hti : (discard_selected s p ids).twist_images = s.twist_images := by
      simp [discard_selected, hp]
    have hm1 : mainAll1 (discard_selected s p ids) = mainAll1 s := by
      simp [mainAll1, discard_selected, hp]
    have htw : twistAll (discard_selected s p ids) = twistAll s := by
      simp [twistAll, discard_selected, hp]
    refine ⟨?_, ?_, hsp.nodup_iff.mpr hn2, ?_, ?_, ?_⟩
    · rw [hm1]; exact hn1
    · intro x hx
      rw [hci]
      exact hb1 x (hm1 ▸ hx)
    · intro x hx
      rw [hci]
      exact hb2 x (hsp.subset hx)
    · rw [htw]; exact hnt
    · intro x hx
      rw [hti]
      exact hbt x (htw ▸ hx)

theorem ensure_main_frame (s : GameState) :
    (ensure_twist_exists s).deck_p1 = s.deck_p1 ∧
    (ensure_twist_exists s).hand_p1 = s.hand_p1 ∧
    (ensure_twist_exists s).discard_p1 = s.discard_p1 ∧
    (ensure_twist_exists s).deck_p2 = s.deck_p2 ∧
    (ensure_twist_exists s).hand_p2 = s.hand_p2 ∧
    (ensure_twist_exists s).discard_p2 = s.discard_p2 ∧
    (ensure_twist_exists s).card_images = s.card_images ∧
    (ensure_twist_exists s).twist_images = s.twist_images := by
  cases hc : s.twist_current <;> cases hg : s.twist_deck.getLast? <;>
    simp [ensure_twist_exists, hc, hg]

theorem change_main_frame (s : GameState) (req : String) :
    (change_twist s req).deck_p1 = s.deck_p1 ∧
    (change_twist s req).hand_p1 = s.hand_p1 ∧
    (change_twist s req).discard_p1 = s.discard_p1 ∧
    (change_twist s req).deck_p2 = s.deck_p2 ∧
    (change_twist s req).hand_p2 = s.hand_p2 ∧
    (change_twist s req).discard_p2 = s.discard_p2 ∧
    (change_twist s req).card_images = s.card_images ∧
    (change_twist s req).twist_images = s.twist_images := by
  by_cases hreq : req = "p1" <;> cases hc : s.twist_current <;>
    cases hg : s.twist_deck.getLast? <;> simp [change_twist, hreq, hc, hg]

theorem ensure_preserves_Inv (s : GameState) (h : Inv s) :
    Inv (ensure_twist_exists s) := by
  obtain ⟨hn1, hb1, hn2, hb2, hnt, hbt⟩ := h
  obtain ⟨e1, e2, e3, e4, e5, e6, e7, e8⟩ := ensure_main_frame s
  have hm1 : mainAll1 (ensure_twist_exists s) = mainAll1 s := by
    unfold mainAll1
    rw [e1, e2, e3]
  have hm2 : mainAll2 (ensure_twist_exists s) = mainAll2 s := by
    unfold mainAll2
    rw [e4, e5, e6]
  have hperm := twistAll_ensure_perm s
  refine ⟨?_, ?_, ?_, ?_, hperm.nodup_iff.mpr hnt, ?_⟩
  · rw [hm1]; exact hn1
  · intro x hx
    rw [e7]
    exact hb1 x (hm1 ▸ hx)
  · rw [hm2]; exact hn2
  · intro x hx
    rw [e7]
    exact hb2 x (hm2 ▸ hx)
  · intro x hx
    rw [e8]
    exact hbt x (hperm.subset hx)

theorem change_preserves_Inv (s : GameState) (req : String) (h : Inv s) :
    Inv (change_twist s req) := by
  obtain ⟨hn1, hb1, hn2, hb2, hnt, hbt⟩ := h
  obtain ⟨e1, e2, e3, e4, e5, e6, e7, e8⟩ := change_main_frame s req
  have hm1 : mainAll1 (change_twist s req) = mainAll1 s := by
    unfold mainAll1
    rw [e1, e2, e3]
  have hm2 : mainAll2 (change_twist s req) = mainAll2 s := by
    unfold mainAll2
    rw [e4, e5, e6]
  have hperm := twistAll_change_perm s req
  refine ⟨?_, ?_, ?_, ?_, hperm.nodup_iff.mpr hnt, ?_⟩
  · rw [hm1]; exact hn1
  · intro x hx
    rw [e7]
    exact hb1 x (hm1 ▸ hx)
  · rw [hm2]; exact hn2
  · intro x hx
    rw [e7]
    exact hb2 x (hm2 ▸ hx)
  · intro x hx
    rw [e8]
    exact hbt x (hperm.subset hx)

theorem initialize_success_state (s : GameState) (imgs : List Nat)
    (paths : List String) (timgs : List Nat) (tpaths : List String) (r : Rng)
    (h1 : imgs ≠ []) (h2 : timgs ≠ []) :
    (initialize_from_dirs s imgs paths timgs tpaths r).1 =
      { s with
          card_images := imgs
          card_paths := paths
          twist_images := timgs
          twist_paths := tpaths
          deck_p1 := (shuffle (List.range imgs.length) (reseed s r)).1
          deck_p2 := (shuffle (List.range imgs.length) (reseed s r)).1
          discard_p1 := []
          discard_p2 := []
          hand_p1 := []
          hand_p2 := []
          twist_deck := (shuffle (List.range timgs.length)
            (shuffle (List.range imgs.length) (reseed s r)).2).1
          twist_discard := []
          twist_current := none } := by
  simp [initialize_from_dirs, h1, h2]

theorem initialize_Inv (s : GameState) (imgs : List Nat) (paths : List String)
    (timgs : List Nat) (tpaths : List String) (r : Rng)
    (h : (initialize_from_dirs s imgs paths timgs tpaths r).2.2 = none) :
    Inv (initialize_from_dirs s imgs paths timgs tpaths r).1 := by
  by_cases h1 : imgs = []
  · simp [initialize_from_dirs, h1] at h
  · by_cases h2 : timgs = []
    · simp [initialize_from_dirs, h1, h2] at h
    · have hb := shuffle_perm (List.range imgs.length) (reseed s r)
      have ht := shuffle_perm (List.range timgs.length)
        (shuffle (List.range imgs.length) (reseed s r)).2
      rw [initialize_success_state s imgs paths timgs tpaths r h1 h2]
      refine ⟨?_, ?_, ?_, ?_, ?_, ?_⟩
      · simpa [mainAll1] using hb.nodup_iff.mpr (List.nodup_range _)
      · intro x hx
        simp only [mainAll1, List.append_nil] at hx
        simpa using List.mem_range.mp (hb.subset hx)
      · simpa [mainAll2] using hb.nodup_iff.mpr (List.nodup_range _)
      · intro x hx
        simp only [mainAll2, List.append_nil] at hx
        simpa using List.mem_range.mp (hb.subset hx)
      · simpa [twistAll, optList] using ht.nodup_iff.mpr (List.nodup_range _)
      · intro x hx
        simp only [twistAll, optList, List.append_nil] at hx
        simpa using List.mem_range.mp (ht.subset hx)

theorem applyOp_preserves_Inv (s : GameState) (op : Op) (h : Inv s) :
    Inv (applyOp s op) := by
  cases op with
  | draw p => exact draw_preserves_Inv s p h
  | discardSel p ids => exact discard_preserves_Inv s p ids h
  | ensureTwist => exact ensure_preserves_Inv s h
  | changeTw req => exact change_preserves_Inv s req h

theorem applyOps_preserves_Inv :
    ∀ (ops : List Op) (s : GameState), Inv s → Inv (applyOps s ops)
  | [], _, h => h
  | op :: rest, s, h =>
    applyOps_preserves_Inv rest (applyOp s op) (applyOp_preserves_Inv s op h)

theorem reachable_Inv (s : GameState) (h : Reachable s) : Inv s := by
  obtain ⟨s0, imgs, paths, timgs, tpaths, r, ops, hnone, hs⟩ := h
  rw [hs]
  exact applyOps_preserves_Inv ops _
    (initialize_Inv s0 imgs paths timgs tpaths r hnone)

/-! ### Discard piles absorb, per collection family -/

theorem draw_discarded (s : GameState) (p : String) (x : Nat) :
    (DiscardedP1 s x → DiscardedP1 (draw_up_to_full s p) x) ∧
    (DiscardedP2 s x → DiscardedP2 (draw_up_to_full s p) x) ∧
    (DiscardedTwist s x → DiscardedTwist (draw_up_to_full s p) x) := by
  by_cases hp : p = "p1"
  · subst hp
    refine ⟨?_, ?_, ?_⟩
    · rintro ⟨hd, hnd, hnh⟩
      obtain ⟨k, hk⟩ :=
        drawLoop_take s.hand_size s.deck_p1.length s.hand_p1 s.deck_p1
      obtain ⟨dr, hdr, hel⟩ :=
        drawLoop_newhand s.hand_size s.deck_p1.length s.hand_p1 s.deck_p1
      refine ⟨by simpa [draw_up_to_full] using hd, ?_, ?_⟩
      · have he : (draw_up_to_full s "p1").deck_p1
            = (drawLoop s.hand_size s.deck_p1.length s.hand_p1 s.deck_p1).2 := by
          simp [draw_up_to_full]
        rw [he, hk]
        intro hmem
        exact hnd (List.take_subset _ _ hmem)
      · have he : (draw_up_to_full s "p1").hand_p1
            = (drawLoop s.hand_size s.deck_p1.length s.hand_p1 s.deck_p1).1 := by
          simp [draw_up_to_full]
        rw [he, hdr]
        intro hmem
        rcases List.mem_append.mp hmem with h | h
        · exact hnh h
        · exact hnd (hel x h).1
    · rintro ⟨hd, hnd, hnh⟩
      exact ⟨by simpa [draw_up_to_full] using hd,
        by simpa [draw_up_to_full] using hnd,
        by simpa [draw_up_to_full] using hnh⟩
    · rintro ⟨hd, hnd, hnc⟩
      exact ⟨by simpa [draw_up_to_full] using hd,
        by simpa [draw_up_to_full] using hnd,
        by simpa [draw_up_to_full] using hnc⟩
  · refine ⟨?_, ?_, ?_⟩
    · rintro ⟨hd, hnd, hnh⟩
      exact ⟨by simpa [draw_up_to_full, hp] using hd,
        by simpa [draw_up_to_full, hp] using hnd,
        by simpa [draw_up_to_full, hp] using hnh⟩
    · rintro ⟨hd, hnd, hnh⟩
      obtain ⟨k, hk⟩ :=
        drawLoop_take s.hand_size s.deck_p2.length s.hand_p2 s.deck_p2
      obtain ⟨dr, hdr, hel⟩ :=
        drawLoop_newhand s.hand_size s.deck_p2.length s.hand_p2 s.deck_p2
      refine ⟨by simpa [draw_up_to_full, hp] using hd, ?_, ?_⟩
      · have he : (draw_up_to_full s p).deck_p2
            = (drawLoop s.hand_size s.deck_p2.length s.hand_p2 s.deck_p2).2 := by
          simp [draw_up_to_full, hp]
        rw [he, hk]
        intro hmem
        exact hnd (List.take_subset _ _ hmem)
      · have he : (draw_up_to_full s p).hand_p2
            = (drawLoop s.hand_size s.deck_p2.length s.hand_p2 s.deck_p2).1 := by
          simp [draw_up_to_full, hp]
        rw [he, hdr]
        intro hmem
        rcases List.mem_append.mp hmem with h | h
        · exact hnh h
        · exact hnd (hel x h).1
    · rintro ⟨hd, hnd, hnc⟩
      exact ⟨by simpa [draw_up_to_full, hp] using hd,
        by simpa [draw_up_to_full, hp] using hnd,
        by simpa [draw_up_to_full, hp] using hnc⟩

theorem discard_discarded (s : GameState) (p : String) (ids : List Nat)
    (x : Nat) :
    (DiscardedP1 s x → DiscardedP1 (discard_selected s p ids) x) ∧
    (DiscardedP2 s x → DiscardedP2 (discard_selected s p ids) x) ∧
    (DiscardedTwist s x → DiscardedTwist (discard_selected s p ids) x) := by
  by_cases hp : p = "p1"
  · subst hp
    refine ⟨?_, ?_, ?_⟩
    · rintro ⟨hd, hnd, hnh⟩
      obtain ⟨ap, hap, _⟩ := discardLoop_discard_decomp ids s.hand_p1 s.discard_p1
      refine ⟨?_, by simpa [discard_selected] using hnd, ?_⟩
      · have he : (discard_selected s "p1" ids).discard_p1
            = (discardLoop ids s.hand_p1 s.discard_p1).2 := by
          simp [discard_selected]
        rw [he, hap]
        exact List.mem_append_left ap hd
      · have he : (discard_selected s "p1" ids).hand_p1
            = (discardLoop ids s.hand_p1 s.discard_p1).1 := by
          simp [discard_selected]
        rw [he]
        intro hmem
        exact hnh ((discardLoop_hand_sublist ids s.hand_p1 s.discard_p1).subset hmem)
    · rintro ⟨hd, hnd, hnh⟩
      exact ⟨by simpa [discard_selected] using hd,
        by simpa [discard_selected] using hnd,
        by simpa [discard_selected] using hnh⟩
    · rintro ⟨hd, hnd, hnc⟩
      exact ⟨by simpa [discard_selected] using hd,
        by simpa [discard_selected] using hnd,
        by simpa [discard_selected] using hnc⟩
  · refine ⟨?_, ?_, ?_⟩
    · rintro ⟨hd, hnd, hnh⟩
      exact ⟨by simpa [discard_selected, hp] using hd,
        by simpa [discard_selected, hp] using hnd,
        by simpa [discard_selected, hp] using hnh⟩
    · rintro ⟨hd, hnd, hnh⟩
      obtain ⟨ap, hap, _⟩ := discardLoop_discard_decomp ids s.hand_p2 s.discard_p2
      refine ⟨?_, by simpa [discard_selected, hp] using hnd, ?_⟩
      · have he : (discard_selected s p ids).discard_p2
            = (discardLoop ids s.hand_p2 s.discard_p2).2 := by
          simp [discard_selected, hp]
        rw [he, hap]
        exact List.mem_append_left ap hd
      · have he : (discard_selected s p ids).hand_p2
            = (discardLoop ids s.hand_p2 s.discard_p2).1 := by
          simp [discard_selected, hp]
        rw [he]
        intro hmem
        exact hnh ((discardLoop_hand_sublist ids s.hand_p2 s.discard_p2).subset hmem)
    · rintro ⟨hd, hnd, hnc⟩
      exact ⟨by simpa [discard_selected, hp] using hd,
        by simpa [discard_selected, hp] using hnd,
        by simpa [discard_selected, hp] using hnc⟩

theorem ensure_discarded (s : GameState) (x : Nat) :
    (DiscardedP1 s x → DiscardedP1 (ensure_twist_exists s) x) ∧
    (DiscardedP2 s x → DiscardedP2 (ensure_twist_exists s) x) ∧
    (DiscardedTwist s x → DiscardedTwist (ensure_twist_exists s) x) := by
  obtain ⟨e1, e2, e3, e4, e5, e6, _, _⟩ := ensure_main_frame s
  refine ⟨?_, ?_, ?_⟩
  · rintro ⟨hd, hnd, hnh⟩
    exact ⟨e3 ▸ hd, e1 ▸ hnd, e2 ▸ hnh⟩
  · rintro ⟨hd, hnd, hnh⟩
    exact ⟨e6 ▸ hd, e4 ▸ hnd, e5 ▸ hnh⟩
  · rintro ⟨hd, hnd, hnc⟩
    cases hc : s.twist_current with
    | some c =>
      have he : ensure_twist_exists s = s := by
        simp [ensure_twist_exists, hc]
      rw [he]
      exact ⟨hd, hnd, hnc⟩
    | none =>
      cases hg : s.twist_deck.getLast? with
      | none =>
        have he : ensure_twist_exists s = s := by
          simp [ensure_twist_exists, hc, hg]
        rw [he]
        exact ⟨hd, hnd, hnc⟩
      | some y =>
        have he : ensure_twist_exists s
            = { s with
                twist_current := some y
                twist_deck := s.twist_deck.dropLast } := by
          simp [ensure_twist_exists, hc, hg]
        rw [he]
        refine ⟨hd, ?_, ?_⟩
        · intro hmem
          exact hnd ((List.dropLast_sublist s.twist_deck).subset hmem)
        · intro heq
          have hy : y = x := by injection heq
          exact hnd (hy ▸ getLast?_some_mem hg)

theorem change_discarded (s : GameState) (req : String) (x : Nat) :
    (DiscardedP1 s x → DiscardedP1 (change_twist s req) x) ∧
    (DiscardedP2 s x → DiscardedP2 (change_twist s req) x) ∧
    (DiscardedTwist s x → DiscardedTwist (change_twist s req) x) := by
  obtain ⟨e1, e2, e3, e4, e5, e6, _, _⟩ := change_main_frame s req
  refine ⟨?_, ?_, ?_⟩
  · rintro ⟨hd, hnd, hnh⟩
    exact ⟨e3 ▸ hd, e1 ▸ hnd, e2 ▸ hnh⟩
  · rintro ⟨hd, hnd, hnh⟩
    exact ⟨e6 ▸ hd, e4 ▸ hnd, e5 ▸ hnh⟩
  · rintro ⟨hd, hnd, hnc⟩
    by_cases hreq : req = "p1"
    · cases hc : s.twist_current with
      | none =>
        cases hg : s.twist_deck.getLast? with
        | none =>
          have he : change_twist s req = s := by
            simp [change_twist, hreq, hc, hg]
          rw [he]
          exact ⟨hd, hnd, hnc⟩
        | some y =>
          have he : change_twist s req
              = { s with
                  twist_current := some y
                  twist_deck := s.twist_deck.dropLast } := by
            simp [change_twist, hreq, hc, hg]
          rw [he]
          refine ⟨hd, ?_, ?_⟩
          · intro hmem
            exact hnd ((List.dropLast_sublist s.twist_deck).subset hmem)
          · intro heq
            have hy : y = x := by injection heq
            exact hnd (hy ▸ getLast?_some_mem hg)
      | some c =>
        cases hg : s.twist_deck.getLast? with
        | none =>
          have hnil : s.twist_deck = [] := List.getLast?_eq_none_iff.mp hg
          have he : change_twist s req
              = { s with
                  twist_discard := s.twist_discard ++ [c]
                  twist_current := none } := by
            simp [change_twist, hreq, hc, hnil]
          rw [he]
          exact ⟨List.mem_append_left [c] hd, hnd, by simp⟩
        | some y =>
          have he : change_twist s req
              = { s with
                  twist_deck := s.twist_deck.dropLast
                  twist_current := some y
                  twist_discard := s.twist_discard ++ [c] } := by
            simp [change_twist, hreq, hc, hg]
          rw [he]
          refine ⟨List.mem_append_left [c] hd, ?_, ?_⟩
          · intro hmem
            exact hnd ((List.dropLast_sublist s.twist_deck).subset hmem)
          · intro heq
            have hy : y = x := by injection heq
            exact hnd (hy ▸ getLast?_some_mem hg)
    · have he : change_twist s req = s := by
        simp [change_twist, hreq]
      rw [he]
      exact ⟨hd, hnd, hnc⟩

theorem applyOp_discarded (s : GameState) (op : Op) (x : Nat) :
    (DiscardedP1 s x → DiscardedP1 (applyOp s op) x) ∧
    (DiscardedP2 s x → DiscardedP2 (applyOp s op) x) ∧
    (DiscardedTwist s x → DiscardedTwist (applyOp s op) x) := by
  cases op with
  | draw p => exact draw_discarded s p x
  | discardSel p ids => exact discard_discarded s p ids x
  | ensureTwist => exact ensure_discarded s x
  | changeTw req => exact change_discarded s req x

theorem applyOps_discarded :
    ∀ (ops : List Op) (s : GameState) (x : Nat),
      (DiscardedP1 s x → DiscardedP1 (applyOps s ops) x) ∧
      (DiscardedP2 s x → DiscardedP2 (applyOps s ops) x) ∧
      (DiscardedTwist s x → DiscardedTwist (applyOps s ops) x)
  | [], _, _ => ⟨id, id, id⟩
  | op :: rest, s, x => by
    have h1 := applyOp_discarded s op x
    have h2 := applyOps_discarded rest (applyOp s op) x
    exact ⟨fun h => h2.1 (h1.1 h), fun h => h2.2.1 (h1.2.1 h),
      fun h => h2.2.2 (h1.2.2 h)⟩

theorem nodup_triple_split {a b c : List Nat} (h : (a ++ b ++ c).Nodup) :
    List.Disjoint a b ∧ List.Disjoint a c ∧ List.Disjoint b c := by
  rw [List.nodup_append] at h
  obtain ⟨hab, _, hdisj⟩ := h
  rw [List.nodup_append] at hab
  obtain ⟨_, _, hab2⟩ := hab
  refine ⟨hab2, ?_, ?_⟩
  · intro y hy hyc
    exact hdisj (List.mem_append_left b hy) hyc
  · intro y hy hyc
    exact hdisj (List.mem_append_right a hy) hyc

/-! ### Claims -/

/-- C1: in every room state reachable from a successful
`initialize_from_dirs` by any sequence of `draw_up_to_full`,
`discard_selected`, `ensure_twist_exists` and `change_twist` calls, each
role's deck, hand and discard are pairwise disjoint and all their ids lie
in `[0, len(card_images))`. -/
theorem C1_partition_invariant (s : GameState) (h : Reachable s) :
    (List.Disjoint s.deck_p1 s.hand_p1 ∧ List.Disjoint s.deck_p1 s.discard_p1 ∧
      List.Disjoint s.hand_p1 s.discard_p1 ∧
      mainAll1 s ⊆ List.range s.card_images.length) ∧
    (List.Disjoint s.deck_p2 s.hand_p2 ∧ List.Disjoint s.deck_p2 s.discard_p2 ∧
      List.Disjoint s.hand_p2 s.discard_p2 ∧
      mainAll2 s ⊆ List.range s.card_images.length) := by
  obtain ⟨hn1, hb1, hn2, hb2, _, _⟩ := reachable_Inv s h
  have hn1' : (s.deck_p1 ++ s.hand_p1 ++ s.discard_p1).Nodup := hn1
  have hn2' : (s.deck_p2 ++ s.hand_p2 ++ s.discard_p2).Nodup := hn2
  obtain ⟨d1, d2, d3⟩ := nodup_triple_split hn1'
  obtain ⟨e1, e2, e3⟩ := nodup_triple_split hn2'
  refine ⟨⟨d1, d2, d3, ?_⟩, ⟨e1, e2, e3, ?_⟩⟩
  · intro x hx
    rw [List.mem_range]
    exact hb1 x hx
  · intro x hx
    rw [List.mem_range]
    exact hb2 x hx

/-- Witness for C1 at the concrete reachable state `initGame`. -/
theorem C1_partition_invariant_witness :
    (List.Disjoint initGame.deck_p1 initGame.hand_p1 ∧
      List.Disjoint initGame.deck_p1 initGame.discard_p1 ∧
      List.Disjoint initGame.hand_p1 initGame.discard_p1 ∧
      mainAll1 initGame ⊆ List.range initGame.card_images.length) ∧
    (List.Disjoint initGame.deck_p2 initGame.hand_p2 ∧
      List.Disjoint initGame.deck_p2 initGame.discard_p2 ∧
      List.Disjoint initGame.hand_p2 initGame.discard_p2 ∧
      mainAll2 initGame ⊆ List.range initGame.card_images.length) :=
  C1_partition_invariant initGame
    ⟨emptyGame, [9], ["c"], [9], ["t"], ⟨0⟩, [], rfl, rfl⟩

/-- C2: immediately after a successful `initialize_from_dirs` the two decks
are equal ordered sequences, each a permutation of
`[0, len(card_images))`, and the per-role collections are independent:
operations on one role never change the other role's deck, hand or
discard. -/
theorem C2_identical_independent_start (s : GameState) (imgs : List Nat)
    (paths : List String) (timgs : List Nat) (tpaths : List String) (r : Rng)
    (st : GameState) (r2 : Rng) (t : GameState) (q : String) (ids : List Nat)
    (hinit : initialize_from_dirs s imgs paths timgs tpaths r = (st, r2, none))
    (hq : q ≠ "p1") :
    st.deck_p1 = st.deck_p2 ∧
    st.deck_p1.Perm (List.range st.card_images.length) ∧
    (draw_up_to_full t "p1").deck_p2 = t.deck_p2 ∧
    (draw_up_to_full t "p1").hand_p2 = t.hand_p2 ∧
    (draw_up_to_full t "p1").discard_p2 = t.discard_p2 ∧
    (discard_selected t "p1" ids).deck_p2 = t.deck_p2 ∧
    (discard_selected t "p1" ids).hand_p2 = t.hand_p2 ∧
    (discard_selected t "p1" ids).discard_p2 = t.discard_p2 ∧
    (draw_up_to_full t q).deck_p1 = t.deck_p1 ∧
    (draw_up_to_full t q).hand_p1 = t.hand_p1 ∧
    (draw_up_to_full t q).discard_p1 = t.discard_p1 ∧
    (discard_selected t q ids).deck_p1 = t.deck_p1 ∧
    (discard_selected t q ids).hand_p1 = t.hand_p1 ∧
    (discard_selected t q ids).discard_p1 = t.discard_p1 := by
  have h1 : imgs ≠ [] := by
    intro he
    rw [he] at hinit
    simp [initialize_from_dirs] at hinit
  have h2 : timgs ≠ [] := by
    intro he
    rw [he] at hinit
    simp [initialize_from_dirs, h1] at hinit
  have hst : st = (initialize_from_dirs s imgs paths timgs tpaths r).1 := by
    rw [hinit]
  rw [initialize_success_state s imgs paths timgs tpaths r h1 h2] at hst
  subst hst
  refine ⟨rfl, ?_, ?_, ?_, ?_, ?_, ?_, ?_, ?_, ?_, ?_, ?_, ?_, ?_⟩
  · simpa using shuffle_perm (List.range imgs.length) (reseed s r)
  · simp [draw_up_to_full]
  · simp [draw_up_to_full]
  · simp [draw_up_to_full]
  · simp [discard_selected]
  · simp [discard_selected]
  · simp [discard_selected]
  · simp [draw_up_to_full, hq]
  · simp [draw_up_to_full, hq]
  · simp [draw_up_to_full, hq]
  · simp [discard_selected, hq]
  · simp [discard_selected, hq]
  · simp [discard_selected, hq]

/-- Witness for C2 at the concrete initialization behind `initGame`. -/
theorem C2_identical_independent_start_witness :
    initPair.1.deck_p1 = initPair.1.deck_p2 ∧
    initPair.1.deck_p1.Perm (List.range initPair.1.card_images.length) ∧
    (draw_up_to_full twistGame "p1").deck_p2 = twistGame.deck_p2 ∧
    (draw_up_to_full twistGame "p1").hand_p2 = twistGame.hand_p2 ∧
    (draw_up_to_full twistGame "p1").discard_p2 = twistGame.discard_p2 ∧
    (discard_selected twistGame "p1" [0]).deck_p2 = twistGame.deck_p2 ∧
    (discard_selected twistGame "p1" [0]).hand_p2 = twistGame.hand_p2 ∧
    (discard_selected twistGame "p1" [0]).discard_p2 = twistGame.discard_p2 ∧
    (draw_up_to_full twistGame "p2").deck_p1 = twistGame.deck_p1 ∧
    (draw_up_to_full twistGame "p2").hand_p1 = twistGame.hand_p1 ∧
    (draw_up_to_full twistGame "p2").discard_p1 = twistGame.discard_p1 ∧
    (discard_selected twistGame "p2" [0]).deck_p1 = twistGame.deck_p1 ∧
    (discard_selected twistGame "p2" [0]).hand_p1 = twistGame.hand_p1 ∧
    (discard_selected twistGame "p2" [0]).discard_p1 = twistGame.discard_p1 :=
  C2_identical_independent_start emptyGame [9] ["c"] [9] ["t"] ⟨0⟩
    initPair.1 initPair.2.1 twistGame "p2" [0] (by decide) (by decide)

/-- C3: if either asset list is empty, `initialize_from_dirs` fails with
the empty-asset error and leaves every field of the room state exactly as
it was. -/
theorem C3_initialize_failure_atomic (s : GameState) (imgs : List Nat)
    (paths : List String) (timgs : List Nat) (tpaths : List String) (r : Rng)
    (h : imgs = [] ∨ timgs = []) :
    ((initialize_from_dirs s imgs paths timgs tpaths r).2.2).isSome = true ∧
    (initialize_from_dirs s imgs paths timgs tpaths r).1 = s := by
  rcases h with h | h
  · simp [initialize_from_dirs, h]
  · by_cases h1 : imgs = []
    · simp [initialize_from_dirs, h1]
    · simp [initialize_from_dirs, h1, h]

/-- Witness for C3 at a concrete empty main-card source. -/
theorem C3_initialize_failure_atomic_witness :
    ((initialize_from_dirs emptyGame [] [] [9] ["t"] ⟨0⟩).2.2).isSome = true ∧
    (initialize_from_dirs emptyGame [] [] [9] ["t"] ⟨0⟩).1 = emptyGame :=
  C3_initialize_failure_atomic emptyGame [] [] [9] ["t"] ⟨0⟩ (Or.inl rfl)

/-- C7: `change_twist` invoked by any requester other than the host
`"p1"` leaves the entire room state unchanged. -/
theorem C7_twist_authorization_noop (s : GameState) (req : String)
    (h : req ≠ "p1") : change_twist s req = s := by
  simp [change_twist, h]

/-- Witness for C7 with requester `"p2"`. -/
theorem C7_twist_authorization_noop_witness :
    change_twist twistGame "p2" = twistGame :=
  C7_twist_authorization_noop twistGame "p2" (by decide)

/-- C10: every role string other than `"p1"` is dispatched to p2's
collections by `draw_up_to_full`, `discard_selected` and `change_twist`;
no role value makes any operation fail (all operations are total
functions of the state). -/
theorem C10_role_dispatch (s : GameState) (q : String) (ids : List Nat)
    (h : q ≠ "p1") :
    draw_up_to_full s q = draw_up_to_full s "p2" ∧
    discard_selected s q ids = discard_selected s "p2" ids ∧
    change_twist s q = change_twist s "p2" := by
  refine ⟨?_, ?_, ?_⟩
  · simp [draw_up_to_full, h]
  · simp [discard_selected, h]
  · simp [change_twist, h]

/-- Witness for C10 with the out-of-role-set string `"observer"`. -/
theorem C10_role_dispatch_witness :
    draw_up_to_full initGame "observer" = draw_up_to_full initGame "p2" ∧
    discard_selected initGame "observer" [0]
      = discard_selected initGame "p2" [0] ∧
    change_twist initGame "observer" = change_twist initGame "p2" :=
  C10_role_dispatch initGame "observer" [0] (by decide)

/-- C4 fails as stated for an arbitrary room state: on `overfullGame`
(hand longer than `hand_size`, deck non-empty) `draw_up_to_full` stops
with neither `len(hand) == hand_size` nor an empty deck. -/
theorem C4_counterexample :
    overfullGame.hand_p1.length > overfullGame.hand_size ∧
    ¬((draw_up_to_full overfullGame "p1").hand_p1.length
        = overfullGame.hand_size ∨
      (draw_up_to_full overfullGame "p1").deck_p1 = []) := by
  decide

/-- C4 (amended with the entry bound `len(hand) ≤ hand_size`, which holds
in all reachable states): `draw_up_to_full` moves tail cards of the deck
into the hand, stops with a full hand or an empty deck, never touches the
discard pile, and leaves the untaken deck a `take`-front of the old
deck. -/
theorem C4_draw_postcondition (s : GameState) (p : String)
    (h : (handOf s p).length ≤ s.hand_size) :
    ((handOf (draw_up_to_full s p) p).length = s.hand_size ∨
      deckOf (draw_up_to_full s p) p = []) ∧
    discardOf (draw_up_to_full s p) p = discardOf s p ∧
    (∃ k, deckOf (draw_up_to_full s p) p = (deckOf s p).take k) ∧
    (∃ dr, handOf (draw_up_to_full s p) p = handOf s p ++ dr ∧
      ∀ x ∈ dr, x ∈ deckOf s p ∧ x ∉ handOf s p) := by
  by_cases hp : p = "p1"
  · subst hp
    have hfill := drawLoop_fill s.hand_size s.deck_p1.length s.hand_p1
      s.deck_p1 (Nat.le_refl _) (by simpa [handOf] using h)
    have hk := drawLoop_take s.hand_size s.deck_p1.length s.hand_p1 s.deck_p1
    have hdr := drawLoop_newhand s.hand_size s.deck_p1.length s.hand_p1 s.deck_p1
    refine ⟨?_, ?_, ?_, ?_⟩
    · simpa [handOf, deckOf, draw_up_to_full] using hfill
    · simp [discardOf, draw_up_to_full]
    · simpa [deckOf, draw_up_to_full] using hk
    · simpa [handOf, deckOf, draw_up_to_full] using hdr
  · have hfill := drawLoop_fill s.hand_size s.deck_p2.length s.hand_p2
      s.deck_p2 (Nat.le_refl _) (by simpa [handOf, hp] using h)
    have hk := drawLoop_take s.hand_size s.deck_p2.length s.hand_p2 s.deck_p2
    have hdr := drawLoop_newhand s.hand_size s.deck_p2.length s.hand_p2 s.deck_p2
    refine ⟨?_, ?_, ?_, ?_⟩
    · simpa [handOf, deckOf, draw_up_to_full, hp] using hfill
    · simp [discardOf, draw_up_to_full, hp]
    · simpa [deckOf, draw_up_to_full, hp] using hk
    · simpa [handOf, deckOf, draw_up_to_full, hp] using hdr

/-- Witness for the amended C4 at the concrete state `initGame`. -/
theorem C4_draw_postcondition_witness :
    ((handOf (draw_up_to_full initGame "p1") "p1").length = initGame.hand_size ∨
      deckOf (draw_up_to_full initGame "p1") "p1" = []) ∧
    discardOf (draw_up_to_full initGame "p1") "p1" = discardOf initGame "p1" ∧
    (∃ k, deckOf (draw_up_to_full initGame "p1") "p1"
      = (deckOf initGame "p1").take k) ∧
    (∃ dr, handOf (draw_up_to_full initGame "p1") "p1"
        = handOf initGame "p1" ++ dr ∧
      ∀ x ∈ dr, x ∈ deckOf initGame "p1" ∧ x ∉ handOf initGame "p1") :=
  C4_draw_postcondition initGame "p1" (by decide)

/-- C5 fails as stated for an arbitrary room state: on `dupHandGame`
(hand `[5, 5]`), `discard_selected` with input `[5]` leaves a `5` in the
hand even though `5` is an input id present in the hand. -/
theorem C5_counterexample :
    5 ∈ dupHandGame.hand_p1 ∧
    5 ∈ (discard_selected dupHandGame "p1" [5]).hand_p1 := by
  decide

/-- C5 (amended with the data model's requirement that the hand is a set,
i.e. duplicate-free): `discard_selected` removes from the hand exactly the
input ids present in it (in order), appends exactly those to the discard
pile, silently ignores absent ids, and never touches the deck. -/
theorem C5_discard_selected_behavior (s : GameState) (p : String)
    (ids : List Nat) (h : (handOf s p).Nodup) :
    deckOf (discard_selected s p ids) p = deckOf s p ∧
    handOf (discard_selected s p ids) p
      = (handOf s p).filter (fun y => decide (y ∉ ids)) ∧
    (∃ ap, discardOf (discard_selected s p ids) p = discardOf s p ++ ap) ∧
    (∀ x, x ∈ discardOf (discard_selected s p ids) p ↔
      x ∈ discardOf s p ∨ (x ∈ ids ∧ x ∈ handOf s p)) := by
  by_cases hp : p = "p1"
  · subst hp
    have hh := discardLoop_hand_eq ids s.hand_p1 s.discard_p1
      (by simpa [handOf] using h)
    have hd := discardLoop_discard_decomp ids s.hand_p1 s.discard_p1
    have hm := discardLoop_discard_mem ids s.hand_p1 s.discard_p1
      (by simpa [handOf] using h)
    refine ⟨?_, ?_, ?_, ?_⟩
    · simp [deckOf, discard_selected]
    · simpa [handOf, discard_selected] using hh
    · obtain ⟨ap, hap, _⟩ := hd
      exact ⟨ap, by simpa [discardOf, discard_selected] using hap⟩
    · intro x
      simpa [discardOf, handOf, discard_selected] using hm x
  · have hh := discardLoop_hand_eq ids s.hand_p2 s.discard_p2
      (by simpa [handOf, hp] using h)
    have hd := discardLoop_discard_decomp ids s.hand_p2 s.discard_p2
    have hm := discardLoop_discard_mem ids s.hand_p2 s.discard_p2
      (by simpa [handOf, hp] using h)
    refine ⟨?_, ?_, ?_, ?_⟩
    · simp [deckOf, discard_selected, hp]
    · simpa [handOf, discard_selected, hp] using hh
    · obtain ⟨ap, hap, _⟩ := hd
      exact ⟨ap, by simpa [discardOf, discard_selected, hp] using hap⟩
    · intro x
      simpa [discardOf, handOf, discard_selected, hp] using hm x

/-- Witness for the amended C5: the spec's Scenario B (hand `{7,2,9}`,
input `{2,99}`). -/
theorem C5_discard_selected_behavior_witness :
    deckOf (discard_selected handGame "p1" [2, 99]) "p1" = deckOf handGame "p1" ∧
    handOf (discard_selected handGame "p1" [2, 99]) "p1"
      = (handOf handGame "p1").filter (fun y => decide (y ∉ [2, 99])) ∧
    (∃ ap, discardOf (discard_selected handGame "p1" [2, 99]) "p1"
      = discardOf handGame "p1" ++ ap) ∧
    (∀ x, x ∈ discardOf (discard_selected handGame "p1" [2, 99]) "p1" ↔
      x ∈ discardOf handGame "p1" ∨ (x ∈ [2, 99] ∧ x ∈ handOf handGame "p1")) :=
  C5_discard_selected_behavior handGame "p1" [2, 99] (by decide)

/-- C6 fails as stated: in the reachable state `discardedGame` the id 0
sits in `discard_p1`, yet the subsequent operation `draw_up_to_full "p2"`
moves that id into a hand (p2's copy of the same id range). -/
theorem C6_counterexample :
    0 ∈ discardedGame.discard_p1 ∧
    0 ∉ discardedGame.hand_p2 ∧
    0 ∈ (applyOp discardedGame (Op.draw "p2")).hand_p2 := by
  decide

/-- C6 (amended to the per-family reading realized by the code: an id
retired into one family's discard pile never returns to that same
family's deck, hand or current slot under any sequence of the four
gameplay operations; the other role's copy of the id and the full reset
`initialize_from_dirs` are excluded). -/
theorem C6_no_resurrection_per_family (s : GameState) (x : Nat)
    (ops : List Op) :
    (DiscardedP1 s x → DiscardedP1 (applyOps s ops) x) ∧
    (DiscardedP2 s x → DiscardedP2 (applyOps s ops) x) ∧
    (DiscardedTwist s x → DiscardedTwist (applyOps s ops) x) :=
  applyOps_discarded ops s x

/-- Witness for the amended C6 on the concrete state `discardedGame` and a
concrete operation sequence. -/
theorem C6_no_resurrection_per_family_witness :
    DiscardedP1 discardedGame 0 ∧
    DiscardedP1 (applyOps discardedGame
      [Op.draw "p2", Op.ensureTwist, Op.changeTw "p1"]) 0 :=
  ⟨by decide,
    (C6_no_resurrection_per_family discardedGame 0
      [Op.draw "p2", Op.ensureTwist, Op.changeTw "p1"]).1 (by decide)⟩

/-- C8: with the same non-empty seed and the same (non-empty) asset
contents, two runs of `initialize_from_dirs` — on any two prior room
states and any two prior rng states — produce identical `deck_p1`,
`deck_p2` and `twist_deck` orderings. -/
theorem C8_seeded_determinism (s1 s2 : GameState) (r1 r2 : Rng) (sd : String)
    (imgs : List Nat) (paths : List String) (timgs : List Nat)
    (tpaths : List String) (h1 : s1.seed = some sd) (h2 : s2.seed = some sd)
    (hne : sd ≠ "") (hi : imgs ≠ []) (ht : timgs ≠ []) :
    (initialize_from_dirs s1 imgs paths timgs tpaths r1).1.deck_p1
      = (initialize_from_dirs s2 imgs paths timgs tpaths r2).1.deck_p1 ∧
    (initialize_from_dirs s1 imgs paths timgs tpaths r1).1.deck_p2
      = (initialize_from_dirs s2 imgs paths timgs tpaths r2).1.deck_p2 ∧
    (initialize_from_dirs s1 imgs paths timgs tpaths r1).1.twist_deck
      = (initialize_from_dirs s2 imgs paths timgs tpaths r2).1.twist_deck := by
  have hr : reseed s1 r1 = reseed s2 r2 := by
    simp [reseed, h1, h2, hne]
  rw [initialize_success_state s1 imgs paths timgs tpaths r1 hi ht,
    initialize_success_state s2 imgs paths timgs tpaths r2 hi ht]
  simp [hr]

/-- Witness for C8: seed `"x"`, two different prior rooms and rng
states. -/
theorem C8_seeded_determinism_witness :
    (initialize_from_dirs seededGameA [9, 9] ["a", "b"] [9] ["t"] ⟨0⟩).1.deck_p1
      = (initialize_from_dirs seededGameB [9, 9] ["a", "b"] [9] ["t"] ⟨5⟩).1.deck_p1 ∧
    (initialize_from_dirs seededGameA [9, 9] ["a", "b"] [9] ["t"] ⟨0⟩).1.deck_p2
      = (initialize_from_dirs seededGameB [9, 9] ["a", "b"] [9] ["t"] ⟨5⟩).1.deck_p2 ∧
    (initialize_from_dirs seededGameA [9, 9] ["a", "b"] [9] ["t"] ⟨0⟩).1.twist_deck
      = (initialize_from_dirs seededGameB [9, 9] ["a", "b"] [9] ["t"] ⟨5⟩).1.twist_deck :=
  C8_seeded_determinism seededGameA seededGameB ⟨0⟩ ⟨5⟩ "x" [9, 9] ["a", "b"]
    [9] ["t"] rfl rfl (by decide) (by decide) (by decide)

/-- C9 fails as stated: on the reachable state `twistGame` (no current
twist, two cards in the twist deck), `ensure_twist_exists` finds the deck
non-empty yet the combined id collection keeps its size — the popped id
moves slots instead of disappearing. -/
theorem C9_counterexample :
    twistGame.twist_current = none ∧
    twistGame.twist_deck ≠ [] ∧
    ¬((twistAll (ensure_twist_exists twistGame)).length + 1
        = (twistAll twistGame).length) ∧
    (twistAll (ensure_twist_exists twistGame)).length
      = (twistAll twistGame).length := by
  decide

/-- C9 (amended: the combined multiset `twist_deck ⊎ {twist_current} ⊎
twist_discard` is conserved — not shrunk — by every `ensure_twist_exists`
and `change_twist` call, while `twist_deck` itself shrinks by exactly one
per successful call that finds it non-empty and is otherwise unchanged;
the current slot holds at most one id and, in reachable states, every id
is in at most one of the three collections). -/
theorem C9_twist_conservation (s : GameState) (req : String)
    (h : Reachable s) :
    (optList s.twist_current).length ≤ 1 ∧
    List.Disjoint s.twist_deck (optList s.twist_current) ∧
    List.Disjoint s.twist_deck s.twist_discard ∧
    List.Disjoint (optList s.twist_current) s.twist_discard ∧
    (twistAll (ensure_twist_exists s)).Perm (twistAll s) ∧
    (twistAll (change_twist s req)).Perm (twistAll s) ∧
    (s.twist_current = none → s.twist_deck ≠ [] →
      (ensure_twist_exists s).twist_deck.length + 1 = s.twist_deck.length) ∧
    (s.twist_current ≠ none ∨ s.twist_deck = [] → ensure_twist_exists s = s) ∧
    (s.twist_deck ≠ [] →
      (change_twist s "p1").twist_deck.length + 1 = s.twist_deck.length) ∧
    (s.twist_deck = [] → (change_twist s "p1").twist_deck = []) := by
  obtain ⟨_, _, _, _, hnt, _⟩ := reachable_Inv s h
  have hnt' : (s.twist_deck ++ optList s.twist_current
      ++ s.twist_discard).Nodup := hnt
  obtain ⟨d1, d2, d3⟩ := nodup_triple_split hnt'
  have hpos : s.twist_deck ≠ [] → 0 < s.twist_deck.length :=
    fun hne => List.length_pos.mpr hne
  refine ⟨?_, d1, d2, d3, twistAll_ensure_perm s, twistAll_change_perm s req,
    ?_, ?_, ?_, ?_⟩
  · cases s.twist_current <;> simp [optList]
  · intro hc hne
    obtain ⟨y, hg⟩ := Option.isSome_iff_exists.mp (List.getLast?_isSome.mpr hne)
    have he : ensure_twist_exists s
        = { s with
            twist_current := some y
            twist_deck := s.twist_deck.dropLast } := by
      simp [ensure_twist_exists, hc, hg]
    rw [he]
    have := hpos hne
    simp [List.length_dropLast]
    omega
  · rintro (hc | hnil)
    · cases hcc : s.twist_current with
      | none => exact absurd hcc hc
      | some c => simp [ensure_twist_exists, hcc]
    · cases hcc : s.twist_current <;>
        simp [ensure_twist_exists, hcc, hnil]
  · intro hne
    obtain ⟨y, hg⟩ := Option.isSome_iff_exists.mp (List.getLast?_isSome.mpr hne)
    have := hpos hne
    cases hc : s.twist_current with
    | none =>
      have he : change_twist s "p1"
          = { s with
              twist_current := some y
              twist_deck := s.twist_deck.dropLast } := by
        simp [change_twist, hc, hg]
      rw [he]
      simp [List.length_dropLast]
      omega
    | some c =>
      have he : change_twist s "p1"
          = { s with
              twist_deck := s.twist_deck.dropLast
              twist_current := some y
              twist_discard := s.twist_discard ++ [c] } := by
        simp [change_twist, hc, hg]
      rw [he]
      simp [List.length_dropLast]
      omega
  · intro hnil
    cases hc : s.twist_current <;> simp [change_twist, hc, hnil]

/-- Witness for the amended C9 at the concrete reachable state
`twistGame`. -/
theorem C9_twist_conservation_witness :
    (optList twistGame.twist_current).length ≤ 1 ∧
    List.Disjoint twistGame.twist_deck (optList twistGame.twist_current) ∧
    List.Disjoint twistGame.twist_deck twistGame.twist_discard ∧
    List.Disjoint (optList twistGame.twist_current) twistGame.twist_discard ∧
    (twistAll (ensure_twist_exists twistGame)).Perm (twistAll twistGame) ∧
    (twistAll (change_twist twistGame "p2")).Perm (twistAll twistGame) ∧
    (twistGame.twist_current = none → twistGame.twist_deck ≠ [] →
      (ensure_twist_exists twistGame).twist_deck.length + 1
        = twistGame.twist_deck.length) ∧
    (twistGame.twist_current ≠ none ∨ twistGame.twist_deck = [] →
      ensure_twist_exists twistGame = twistGame) ∧
    (twistGame.twist_deck ≠ [] →
      (change_twist twistGame "p1").twist_deck.length + 1
        = twistGame.twist_deck.length) ∧
    (twistGame.twist_deck = [] →
      (change_twist twistGame "p1").twist_deck = []) :=
  C9_twist_conservation twistGame "p2"
    ⟨emptyGame, [9], ["c"], [9, 9], ["t", "t"], ⟨0⟩, [], rfl, rfl⟩

end CardPicker
